import Mathlib

/- Verification development for the Music Assistant Home Assistant integration.

   The Python sources are shallowly embedded: Python strings become lists of
   characters, the Python str.split method (with a non-empty separator) becomes
   pySplit, fallible operations (list indexing, 2-tuple unpacking) return
   Except values, and the handlers of player_controls.py, media_source.py and
   media_player.py become pure functions over explicit state. -/

set_option maxRecDepth 4096

/-! ## Python string primitives -/

abbrev PyStr := List Char

def pystr (s : String) : PyStr := s.toList

/-- Helper for pySplitF: prepend a character to the first chunk of a split
result, mirroring how a scan extends the current chunk. -/
def consHead (c : Char) : List PyStr → List PyStr
  | [] => [[c]]
  | h :: t => (c :: h) :: t

/-- Fuelled worker for pySplit. With fuel at least the length of the string it
computes the Python str.split semantics for a non-empty separator: scan left to
right, cut at each non-overlapping occurrence of the separator. -/
def pySplitF (sep : PyStr) : Nat → PyStr → List PyStr
  | _, [] => [[]]
  | 0, s => [s]
  | Nat.succ fuel, c :: cs =>
    if sep ≠ [] ∧ sep.isPrefixOf (c :: cs) = true then
      [] :: pySplitF sep fuel (List.drop (sep.length - 1) cs)
    else consHead c (pySplitF sep fuel cs)

/-- Python str.split with an explicit non-empty separator. -/
def pySplit (sep s : PyStr) : List PyStr := pySplitF sep s.length s

/-- Boolean substring check: the pattern occurs contiguously in the string. -/
def hasSubstr (pat : PyStr) : PyStr → Bool
  | [] => pat.isPrefixOf []
  | c :: cs => pat.isPrefixOf (c :: cs) || hasSubstr pat cs

/-- Python str.join over a list of strings. -/
def pyJoin (sep : PyStr) : List PyStr → PyStr
  | [] => []
  | h :: t => t.foldl (fun acc x => acc ++ sep ++ x) h

/-- Exceptions raised by the embedded Python fragments. -/
inductive PyErr
  | indexError
  | valueError
deriving DecidableEq

/-- Python list indexing, raising IndexError when out of bounds. -/
def pyIndex (l : List α) (n : Nat) : Except PyErr α :=
  match l.get? n with
  | some a => Except.ok a
  | none => Except.error PyErr.indexError

/-- Python unpacking of a list into exactly two variables, raising ValueError
otherwise. -/
def pyUnpack2 (l : List α) : Except PyErr (α × α) :=
  match l with
  | [a, b] => Except.ok (a, b)
  | _ => Except.error PyErr.valueError

deriving instance DecidableEq for Except

/-! ## URI codec (media_source.py) -/

/-- Modelled from the spec: the fixed scheme prefix of section 4.1. The value
combines the hosting framework constant URI_SCHEME (media-source://) with the
integration DOMAIN from const.py, a file whose declarations are not under src;
the resulting constant is the one media_source.py builds at import time. -/
def MASS_URI_SCHEME : PyStr := pystr "media-source://music_assistant/"

def ITEM_ID_SEPERATOR : PyStr := pystr "###"

def PLAYABLE_MEDIA_TYPES : List PyStr :=
  [pystr "playlist", pystr "album", pystr "artist", pystr "radio", pystr "track"]

/-- Result dictionary of async_parse_uri. -/
structure ParsedUri where
  item_id : PyStr
  provider : PyStr
  media_type : PyStr
  mass_id : PyStr
  content_id : PyStr
deriving DecidableEq

/-- Body of async_parse_uri after the two stripping steps: split the remaining
uri on the slash delimiter, read mass_id and media_type, and split a present
non-empty third segment at the private separator into provider and item_id. -/
def parseCore (uri : PyStr) : Except PyErr ParsedUri := do
  let parts := pySplit (pystr "/") uri
  let mass_id ← pyIndex parts 0
  let media_type ← pyIndex parts 1
  if parts.length > 2 then
    let content_id ← pyIndex parts 2
    if content_id ≠ [] then
      let pr ← pyUnpack2 (pySplit ITEM_ID_SEPERATOR content_id)
      return ⟨pr.2, pr.1, media_type, mass_id, content_id⟩
    else
      return ⟨[], [], media_type, mass_id, content_id⟩
  else
    return ⟨[], [], media_type, mass_id, []⟩

/-- Embedding of async_parse_uri: strip the scheme prefix when present, strip
one leading slash, then parse the remainder. -/
def async_parse_uri (uri : PyStr) : Except PyErr ParsedUri := do
  let uri1 ← if MASS_URI_SCHEME.isPrefixOf uri then
      pyIndex (pySplit MASS_URI_SCHEME uri) 1
    else pure uri
  let uri2 := if (pystr "/").isPrefixOf uri1 then uri1.drop 1 else uri1
  parseCore uri2

/-- The two stripping steps of async_parse_uri as a total function (the index
after the scheme split cannot fail because the split string starts with the
separator and therefore yields at least two parts). -/
def stripUri (uri : PyStr) : PyStr :=
  let uri1 := if MASS_URI_SCHEME.isPrefixOf uri then (pySplit MASS_URI_SCHEME uri).getD 1 []
    else uri
  if (pystr "/").isPrefixOf uri1 then uri1.drop 1 else uri1

/-- The provider/item_id pair mangled into one segment by
async_create_media_item_source. -/
def media_item_id (provider item_id : PyStr) : PyStr :=
  provider ++ ITEM_ID_SEPERATOR ++ item_id

/-- The identifier string built by async_create_media_item_source:
server_id / media_type / provider###item_id. -/
def buildIdentifier (server_id media_type provider item_id : PyStr) : PyStr :=
  server_id ++ pystr "/" ++ media_type ++ pystr "/" ++ media_item_id provider item_id

/-! ## Browse item construction (media_source.py, async_create_media_item_source) -/

/-- The fields of a Music Assistant media item used by
async_create_media_item_source: artist_name stands for the name of the single
artist key of albums, artists for the name list of the artists key of tracks. -/
structure MediaItem where
  media_type : PyStr
  name : PyStr
  artist_name : PyStr
  artists : List PyStr
  provider : PyStr
  item_id : PyStr
deriving DecidableEq

/-- Title computation of async_create_media_item_source. The source runs an
if statement for albums followed by an if/else statement for tracks; the
second statement assigns on every path, so the album assignment is always
overwritten. The sequence of rebindings mirrors that control flow. -/
def mediaItemTitle (mi : MediaItem) : PyStr :=
  let title : Option PyStr := none
  let title := if mi.media_type = pystr "album" then
      some (mi.artist_name ++ pystr " - " ++ mi.name)
    else title
  let title := if mi.media_type = pystr "track" then
      some (pyJoin (pystr " / ") mi.artists ++ pystr " - " ++ mi.name)
    else some mi.name
  title.getD []

/-- Playability flag of the browse node built by async_create_media_item_source. -/
def mediaItemCanPlay (mi : MediaItem) : Bool :=
  mi.media_type ∈ PLAYABLE_MEDIA_TYPES

/-- Expandability flag of the browse node built by async_create_media_item_source. -/
def mediaItemCanExpand (mi : MediaItem) : Bool :=
  mi.media_type ∉ [pystr "track", pystr "radio"]

/-! ## Player control bridge (player_controls.py) -/

def CONTROL_TYPE_POWER : Nat := 0
def CONTROL_TYPE_VOLUME : Nat := 1

def SWITCH_DOMAIN : PyStr := pystr "switch"
def MEDIA_PLAYER_DOMAIN : PyStr := pystr "media_player"
def INPUT_BOOLEAN_DOMAIN : PyStr := pystr "input_boolean"

def OFF_STATES : List PyStr := [pystr "off", pystr "unavailable", pystr "unknown"]

/-- The entity attributes read by player_controls.py. A missing dictionary key
is none. -/
structure EntityAttributes where
  mass_player_id : Option PyStr
  input_source_list : Option (List PyStr)
  input_source : Option PyStr
  media_volume_level : Option Rat
deriving DecidableEq

/-- A Home Assistant entity state object. -/
structure EntityState where
  entity_id : PyStr
  domain : PyStr
  name : PyStr
  state : PyStr
  attributes : EntityAttributes
deriving DecidableEq

/-- Python truthiness of an optional string attribute. -/
def truthyStr : Option PyStr → Bool
  | none => false
  | some s => !s.isEmpty

/-- A PlayerControl dictionary as built by async_get_playercontrol_entities.
Volume controls carry no source key, hence the Option. -/
structure Control where
  control_type : Nat
  control_id : PyStr
  provider_name : PyStr
  name : PyStr
  entity_id : PyStr
  source : Option PyStr
deriving DecidableEq

/-- The power control candidates of one entity: one per entry of the source
list attribute, which defaults to a single empty source when the attribute is
absent. -/
def powerControlsOf (e : EntityState) : List Control :=
  (e.attributes.input_source_list.getD [[]]).map (fun source =>
    if source ≠ [] then
      { control_type := CONTROL_TYPE_POWER,
        control_id := e.entity_id ++ pystr "_power_" ++ source,
        provider_name := pystr "Home Assistant",
        name := e.name ++ pystr " (" ++ e.entity_id ++ pystr "): " ++ source,
        entity_id := e.entity_id,
        source := some source }
    else
      { control_type := CONTROL_TYPE_POWER,
        control_id := e.entity_id ++ pystr "_power",
        provider_name := pystr "Home Assistant",
        name := e.name ++ pystr " (" ++ e.entity_id ++ pystr ")",
        entity_id := e.entity_id,
        source := some source })

/-- The volume control candidate of one entity, present for media players. -/
def volumeControlsOf (e : EntityState) : List Control :=
  if e.domain = MEDIA_PLAYER_DOMAIN then
    [{ control_type := CONTROL_TYPE_VOLUME,
       control_id := e.entity_id ++ pystr "_volume",
       provider_name := pystr "Home Assistant",
       name := e.name ++ pystr " (" ++ e.entity_id ++ pystr ")",
       entity_id := e.entity_id,
       source := none }]
  else []

def CONTROL_DOMAINS : List PyStr := [SWITCH_DOMAIN, MEDIA_PLAYER_DOMAIN, INPUT_BOOLEAN_DOMAIN]

/-- Embedding of async_get_playercontrol_entities: scan the entities of the
three controllable domains, skip entities carrying a mass_player_id attribute,
and collect power then volume candidates per entity. -/
def async_get_playercontrol_entities (entities : List EntityState) : List Control :=
  (entities.filter (fun e => decide (e.domain ∈ CONTROL_DOMAINS))).flatMap (fun e =>
    if truthyStr e.attributes.mass_player_id then []
    else powerControlsOf e ++ volumeControlsOf e)

/-- hass.states.get -/
def statesGet (hass : List EntityState) (entity_id : PyStr) : Option EntityState :=
  hass.find? (fun e => e.entity_id == entity_id)

/-- A value travelling between the bridge and the remote server: booleans for
power controls, numbers for volume controls. -/
inductive PyValue
  | pyBool (b : Bool)
  | pyNum (q : Rat)
deriving DecidableEq

def PyValue.truthy : PyValue → Bool
  | .pyBool b => b
  | .pyNum q => q != 0

/-- Python numeric coercion: True is 1 and False is 0. -/
def PyValue.toQ : PyValue → Rat
  | .pyBool b => if b then 1 else 0
  | .pyNum q => q

/-- One hass.services.async_call invocation: domain, service and the data
dictionary (entity id plus the optional source or volume level entries). -/
structure ServiceCall where
  domain : PyStr
  service : PyStr
  entity_id : PyStr
  source : Option PyStr
  volume_level : Option Rat
deriving DecidableEq

/-- Embedding of HassPlayerControls.async_set_player_control_state: the local
service calls dispatched for a state-change request from the remote server.
A missing target entity dispatches nothing. -/
def async_set_player_control_state (hass : List EntityState) (control : Control)
    (new_state : PyValue) : List ServiceCall :=
  match statesGet hass control.entity_id with
  | none => []
  | some entity =>
    if control.control_type = CONTROL_TYPE_POWER ∧ truthyStr control.source then
      if new_state.truthy = true ∧ entity.state = pystr "off" then
        [{ domain := entity.domain, service := pystr "select_source",
           entity_id := control.entity_id, source := control.source, volume_level := none }]
      else if entity.attributes.input_source == control.source then
        [{ domain := entity.domain, service := pystr "turn_off",
           entity_id := control.entity_id, source := none, volume_level := none }]
      else []
    else if control.control_type = CONTROL_TYPE_POWER then
      [{ domain := entity.domain,
         service := if new_state.truthy then pystr "turn_on" else pystr "turn_off",
         entity_id := control.entity_id, source := none, volume_level := none }]
    else if control.control_type = CONTROL_TYPE_VOLUME then
      [{ domain := entity.domain, service := pystr "volume_set",
         entity_id := control.entity_id, source := none,
         volume_level := some (new_state.toQ / 100) }]
    else []

/-- The per-control state recomputed by async_hass_state_event on a local
state change. The final none branch marks control types the source never
builds; the Python would stop with an unbound local there. -/
def controlUpdateValue (control : Control) (state_obj : EntityState) : Option PyValue :=
  if control.control_type = CONTROL_TYPE_POWER ∧ truthyStr control.source then
    some (PyValue.pyBool (state_obj.attributes.input_source.getD [] == control.source.getD []))
  else if control.control_type = CONTROL_TYPE_POWER then
    some (PyValue.pyBool (decide (state_obj.state ∉ OFF_STATES)))
  else if control.control_type = CONTROL_TYPE_VOLUME then
    some (PyValue.pyNum ((state_obj.attributes.media_volume_level.getD 0) * 100))
  else none

/-- The registered-controls table of HassPlayerControls, keyed by entity id. -/
abbrev RegisteredTable := List (PyStr × List Control)

/-- Embedding of HassPlayerControls.async_hass_state_event: the
update_player_control calls (control id and new state) pushed to the remote
server for one local state-changed event. -/
def async_hass_state_event (registered : RegisteredTable) (event_entity_id : PyStr)
    (new_state : Option EntityState) : List (PyStr × PyValue) :=
  match registered.lookup event_entity_id with
  | none => []
  | some controls =>
    match new_state with
    | none => []
    | some state_obj =>
      controls.filterMap (fun c => (controlUpdateValue c state_obj).map (fun v => (c.control_id, v)))

/-- The initial state snapshot computed at registration time by
async_register_player_controls. -/
def registrationState (control : Control) (entity : EntityState) : PyValue :=
  if control.control_type = CONTROL_TYPE_VOLUME then
    PyValue.pyNum ((entity.attributes.media_volume_level.getD 0) * 100)
  else
    PyValue.pyBool (decide (entity.state ∉ OFF_STATES))

/-- One register_player_control call sent to the remote server. -/
structure RegisterCall where
  control_type : Nat
  control_id : PyStr
  name : PyStr
  state : PyValue
deriving DecidableEq

/-- The table update at the end of the registration loop body: create the
entry for the entity id when absent, then append the control unless already
present. -/
def tableAdd (tbl : RegisteredTable) (entity_id : PyStr) (c : Control) : RegisteredTable :=
  let tbl1 := if (tbl.lookup entity_id).isSome then tbl else tbl ++ [(entity_id, [])]
  tbl1.map (fun kv => if kv.1 = entity_id then (kv.1, if c ∈ kv.2 then kv.2 else kv.2 ++ [c]) else kv)

/-- One iteration of the registration loop: skip controls that are not enabled
or whose entity is gone, otherwise emit a register call and extend the table. -/
def regStep (hass : List EntityState) (enabled : List PyStr)
    (acc : RegisteredTable × List RegisterCall) (control : Control) :
    RegisteredTable × List RegisterCall :=
  if control.control_id ∈ enabled then
    match statesGet hass control.entity_id with
    | none => acc
    | some entity =>
      (tableAdd acc.1 entity.entity_id control,
       acc.2 ++ [{ control_type := control.control_type, control_id := control.control_id,
                   name := control.name, state := registrationState control entity }])
  else acc

/-- Embedding of HassPlayerControls.async_register_player_controls: fold the
registration loop over the discovered candidates, starting from the current
registered-controls table of the bridge instance. -/
def async_register_player_controls (hass : List EntityState)
    (enabled_power_controls enabled_volume_controls : List PyStr)
    (tbl : RegisteredTable) : RegisteredTable × List RegisterCall :=
  (async_get_playercontrol_entities hass).foldl
    (regStep hass (enabled_power_controls ++ enabled_volume_controls)) (tbl, [])

/-- Number of controls currently held in the registered-controls table. -/
def totalRegistered (tbl : RegisteredTable) : Nat :=
  (tbl.map (fun kv => kv.2.length)).sum

/-! ## Media player lifecycle (media_player.py) -/

/-- The cached player snapshot of a MassPlayer entity. -/
structure PlayerData where
  player_id : PyStr
  available : Bool
  name : PyStr
  state : PyStr
  volume_level : Rat
deriving DecidableEq

/-- The media_players dictionary of async_setup_entry, each entity modelled by
its cached snapshot. -/
abbrev MediaPlayers := List (PyStr × PlayerData)

/-- Embedding of async_update_media_player: a first snapshot that is
unavailable is dropped, a first available snapshot adds the entity, and an
update for a known player replaces the cached snapshot. -/
def async_update_media_player (mp : MediaPlayers) (pd : PlayerData) : MediaPlayers :=
  match mp.lookup pd.player_id with
  | none => if pd.available = false then mp else mp ++ [(pd.player_id, pd)]
  | some _ => mp.map (fun kv => if kv.1 = pd.player_id then (kv.1, pd) else kv)

/-- Embedding of async_remove_media_player together with
MassPlayer.async_mark_unavailable: every entity whose player id matches gets
its cached available field cleared; nothing is deleted. -/
def async_remove_media_player (mp : MediaPlayers) (pid : PyStr) : MediaPlayers :=
  mp.map (fun kv => if kv.2.player_id = pid then (kv.1, { kv.2 with available := false }) else kv)

/-! ## Concrete sample data -/

def attrsNone : EntityAttributes :=
  { mass_player_id := none, input_source_list := none, input_source := none,
    media_volume_level := none }

/-- The receiver entity of the discovery example: a media player exposing the
source list TV, CD. -/
def receiver : EntityState :=
  { entity_id := pystr "media_player.receiver", domain := MEDIA_PLAYER_DOMAIN,
    name := pystr "Receiver", state := pystr "on",
    attributes := { mass_player_id := none,
                    input_source_list := some [pystr "TV", pystr "CD"],
                    input_source := none, media_volume_level := none } }

/-- An amplifier entity that is on with source TV selected. -/
def entAmpTV : EntityState :=
  { entity_id := pystr "media_player.amp", domain := MEDIA_PLAYER_DOMAIN,
    name := pystr "Amp", state := pystr "on",
    attributes := { mass_player_id := none,
                    input_source_list := some [pystr "TV", pystr "CD"],
                    input_source := some (pystr "TV"), media_volume_level := none } }

/-- An amplifier entity that is on with source CD selected. -/
def entAmpCD : EntityState :=
  { entity_id := pystr "media_player.amp", domain := MEDIA_PLAYER_DOMAIN,
    name := pystr "Amp", state := pystr "on",
    attributes := { mass_player_id := none,
                    input_source_list := some [pystr "TV", pystr "CD"],
                    input_source := some (pystr "CD"), media_volume_level := none } }

/-- The sourced power control bound to the amplifier with source TV. -/
def ctlTV : Control :=
  { control_type := CONTROL_TYPE_POWER, control_id := pystr "media_player.amp_power_TV",
    provider_name := pystr "Home Assistant",
    name := pystr "Amp (media_player.amp): TV",
    entity_id := pystr "media_player.amp", source := some (pystr "TV") }

/-- A second media player used for the volume control example. -/
def entAmp2 : EntityState :=
  { entity_id := pystr "media_player.amp2", domain := MEDIA_PLAYER_DOMAIN,
    name := pystr "Amp2", state := pystr "playing", attributes := attrsNone }

/-- The volume control bound to the second media player. -/
def ctlVol : Control :=
  { control_type := CONTROL_TYPE_VOLUME, control_id := pystr "media_player.amp2_volume",
    provider_name := pystr "Home Assistant",
    name := pystr "Amp2 (media_player.amp2)",
    entity_id := pystr "media_player.amp2", source := none }

/-- Two plain switch entities for the re-registration scenario. -/
def swA : EntityState :=
  { entity_id := pystr "switch.a", domain := SWITCH_DOMAIN, name := pystr "A",
    state := pystr "on", attributes := attrsNone }

def swB : EntityState :=
  { entity_id := pystr "switch.b", domain := SWITCH_DOMAIN, name := pystr "B",
    state := pystr "on", attributes := attrsNone }

/-- An album media item by Pink Floyd named Animals. -/
def sampleAlbum : MediaItem :=
  { media_type := pystr "album", name := pystr "Animals",
    artist_name := pystr "Pink Floyd", artists := [],
    provider := pystr "spotify", item_id := pystr "42" }

/-- A player snapshot that is unavailable. -/
def offlinePlayer : PlayerData :=
  { player_id := pystr "p1", available := false, name := pystr "P",
    state := pystr "idle", volume_level := 0 }

/-! ## Lemmas about the split primitive -/

theorem consHead_cons (c : Char) (h : PyStr) (t : List PyStr) :
    consHead c (h :: t) = (c :: h) :: t := rfl

theorem pySplitF_ne_nil (sep : PyStr) : ∀ f s, pySplitF sep f s ≠ []
  | _, [] => by simp [pySplitF]
  | 0, _ :: _ => by simp [pySplitF]
  | Nat.succ f, c :: cs => by
    simp only [pySplitF]
    by_cases h : sep ≠ [] ∧ sep.isPrefixOf (c :: cs) = true
    · simp [h]
    · rw [if_neg h]
      cases hcs : pySplitF sep f cs <;> simp [consHead]

theorem pySplitF_irrel (sep : PyStr) :
    ∀ f₁ f₂ s, s.length ≤ f₁ → s.length ≤ f₂ → pySplitF sep f₁ s = pySplitF sep f₂ s := by
  intro f₁
  induction f₁ with
  | zero =>
    intro f₂ s h1 _
    have : s = [] := List.eq_nil_of_length_eq_zero (Nat.le_zero.mp h1)
    subst this
    cases f₂ <;> simp [pySplitF]
  | succ g ih =>
    intro f₂ s h1 h2
    cases s with
    | nil => cases f₂ <;> simp [pySplitF]
    | cons c cs =>
      cases f₂ with
      | zero => simp at h2
      | succ g₂ =>
        simp only [pySplitF]
        by_cases hc : sep ≠ [] ∧ sep.isPrefixOf (c :: cs) = true
        · rw [if_pos hc, if_pos hc]
          congr 1
          refine ih g₂ _ ?_ ?_ <;>
            simp only [List.length_drop] <;> simp at h1 h2 <;> omega
        · rw [if_neg hc, if_neg hc]
          congr 1
          refine ih g₂ cs ?_ ?_ <;> simp at h1 h2 <;> omega

theorem pySplitF_eq_pySplit (sep : PyStr) (f : Nat) (s : PyStr) (h : s.length ≤ f) :
    pySplitF sep f s = pySplit sep s :=
  pySplitF_irrel sep f s.length s h (Nat.le_refl _)

theorem pySplitF_char_append (d : Char) (b : PyStr) :
    ∀ (a : PyStr) (f : Nat), (a ++ d :: b).length ≤ f → d ∉ a →
      pySplitF [d] f (a ++ d :: b) = a :: pySplit [d] b := by
  intro a
  induction a with
  | nil =>
    intro f hf _
    cases f with
    | zero => simp at hf
    | succ g =>
      simp only [List.nil_append, pySplitF]
      rw [if_pos ⟨by simp, by simp [List.isPrefixOf]⟩]
      simp only [List.length_singleton, Nat.sub_self, List.drop_zero]
      rw [pySplitF_eq_pySplit [d] g b (by simp at hf; omega)]
  | cons c a' ih =>
    intro f hf ha
    have hc : c ≠ d := fun he => ha (he ▸ List.mem_cons_self c a')
    cases f with
    | zero => simp at hf
    | succ g =>
      simp only [List.cons_append, pySplitF, List.append_eq]
      rw [if_neg]
      · rw [ih g (by simp at hf ⊢; omega) (fun hm => ha (List.mem_cons_of_mem c hm))]
        rfl
      · simp [List.isPrefixOf]
        intro he
        exact absurd he.symm hc

theorem pySplit_char_append (d : Char) (a b : PyStr) (ha : d ∉ a) :
    pySplit [d] (a ++ d :: b) = a :: pySplit [d] b :=
  pySplitF_char_append d b a _ (Nat.le_refl _) ha

theorem pySplitF_no_substr (pat : PyStr) :
    ∀ (s : PyStr) (f : Nat), s.length ≤ f → hasSubstr pat s = false →
      pySplitF pat f s = [s] := by
  intro s
  induction s with
  | nil => intro f _ _; cases f <;> simp [pySplitF]
  | cons c cs ih =>
    intro f hf hsub
    simp only [hasSubstr, Bool.or_eq_false_iff] at hsub
    cases f with
    | zero => simp at hf
    | succ g =>
      simp only [pySplitF]
      rw [if_neg (fun hcond => by simp [hsub.1] at hcond)]
      rw [ih g (by simp at hf; omega) hsub.2]
      rfl

theorem pySplit_no_substr (pat s : PyStr) (h : hasSubstr pat s = false) :
    pySplit pat s = [s] :=
  pySplitF_no_substr pat s s.length (Nat.le_refl _) h

theorem pySplit_no_char (d : Char) (s : PyStr) (h : d ∉ s) :
    pySplit [d] s = [s] := by
  refine pySplit_no_substr [d] s ?_
  induction s with
  | nil => simp [hasSubstr, List.isPrefixOf]
  | cons c cs ih =>
    simp only [hasSubstr, Bool.or_eq_false_iff]
    refine ⟨?_, ih (fun hm => h (List.mem_cons_of_mem c hm))⟩
    have hc : d ≠ c := fun he => h (he ▸ List.mem_cons_self c cs)
    simp [List.isPrefixOf, hc]

theorem sep_chars : ITEM_ID_SEPERATOR = ['#', '#', '#'] := rfl

theorem pySplitF_pos (sep : PyStr) (f : Nat) (c : Char) (cs : PyStr)
    (h : sep ≠ [] ∧ sep.isPrefixOf (c :: cs) = true) :
    pySplitF sep (f + 1) (c :: cs) = [] :: pySplitF sep f (List.drop (sep.length - 1) cs) := by
  simp only [pySplitF]
  rw [if_pos h]

theorem pySplitF_neg (sep : PyStr) (f : Nat) (c : Char) (cs : PyStr)
    (h : ¬(sep ≠ [] ∧ sep.isPrefixOf (c :: cs) = true)) :
    pySplitF sep (f + 1) (c :: cs) = consHead c (pySplitF sep f cs) := by
  simp only [pySplitF]
  rw [if_neg h]

theorem pySplitF_hash_append :
    ∀ (p : PyStr) (f : Nat) (i : PyStr), (p ++ ['#', '#', '#'] ++ i).length ≤ f →
      hasSubstr ['#', '#', '#'] p = false → p.getLast? ≠ some '#' →
      hasSubstr ['#', '#', '#'] i = false →
      pySplitF ['#', '#', '#'] f (p ++ ['#', '#', '#'] ++ i) = [p, i] := by
  intro p
  induction p with
  | nil =>
    intro f i hf _ _ hi
    cases f with
    | zero => simp at hf
    | succ g =>
      rw [show ([] : PyStr) ++ ['#', '#', '#'] ++ i = '#' :: ('#' :: '#' :: i) by simp]
      rw [pySplitF_pos _ _ _ _ ⟨by simp, by simp [List.isPrefixOf]⟩]
      rw [show List.drop ((['#', '#', '#'] : PyStr).length - 1) ('#' :: '#' :: i) = i from rfl]
      rw [pySplitF_no_substr _ i g (by simp at hf; omega) hi]
  | cons c p' ih =>
    intro f i hf hp hlast hi
    cases f with
    | zero => simp at hf
    | succ g =>
      simp only [hasSubstr, Bool.or_eq_false_iff] at hp
      rw [show (c :: p') ++ ['#', '#', '#'] ++ i = c :: (p' ++ ['#', '#', '#'] ++ i) by simp]
      by_cases hcond : (['#', '#', '#'] : PyStr) ≠ [] ∧
          List.isPrefixOf ['#', '#', '#'] (c :: (p' ++ ['#', '#', '#'] ++ i)) = true
      · exfalso
        obtain ⟨-, hpre⟩ := hcond
        rw [show p' ++ ['#', '#', '#'] ++ i = p' ++ (['#', '#', '#'] ++ i) by
          rw [List.append_assoc]] at hpre
        simp only [List.isPrefixOf, Bool.and_eq_true, beq_iff_eq] at hpre
        obtain ⟨rfl, hpre⟩ := hpre
        cases p' with
        | nil => exact hlast rfl
        | cons c' q =>
          simp only [List.cons_append, List.isPrefixOf, Bool.and_eq_true, beq_iff_eq] at hpre
          obtain ⟨rfl, hpre⟩ := hpre
          cases q with
          | nil => exact hlast rfl
          | cons c'' q2 =>
            simp only [List.cons_append, List.isPrefixOf, Bool.and_eq_true, beq_iff_eq] at hpre
            obtain ⟨rfl, -⟩ := hpre
            have hh : List.isPrefixOf ['#', '#', '#'] ('#' :: '#' :: '#' :: q2) = true := by
              simp [List.isPrefixOf]
            rw [hh] at hp
            simp at hp
      · rw [pySplitF_neg _ _ _ _ hcond]
        have hlast' : p'.getLast? ≠ some '#' := by
          cases p' with
          | nil => simp
          | cons x xs =>
            rw [show (c :: x :: xs).getLast? = (x :: xs).getLast? from List.getLast?_cons_cons]
              at hlast
            exact hlast
        rw [ih g i (by simp at hf ⊢; omega) hp.2 hlast' hi]
        rfl

theorem pySplit_hash_append (p i : PyStr)
    (hp : hasSubstr ['#', '#', '#'] p = false) (hlast : p.getLast? ≠ some '#')
    (hi : hasSubstr ['#', '#', '#'] i = false) :
    pySplit ['#', '#', '#'] (p ++ ['#', '#', '#'] ++ i) = [p, i] :=
  pySplitF_hash_append p _ i (Nat.le_refl _) hp hlast hi

/-! ## Lemmas about prefixes and the scheme -/

theorem isPrefixOf_ex : ∀ {l₁ l₂ : PyStr}, l₁.isPrefixOf l₂ = true → ∃ t, l₁ ++ t = l₂
  | [], l₂, _ => ⟨l₂, rfl⟩
  | _ :: _, [], h => by simp [List.isPrefixOf] at h
  | a :: as, b :: bs, h => by
    simp only [List.isPrefixOf, Bool.and_eq_true, beq_iff_eq] at h
    obtain ⟨rfl, h⟩ := h
    obtain ⟨t, ht⟩ := isPrefixOf_ex h
    exact ⟨t, by rw [List.cons_append, ht]⟩

theorem first_slash_eq :
    ∀ (xs : PyStr) {ys u v : PyStr}, '/' ∉ xs → '/' ∉ ys →
      xs ++ '/' :: u = ys ++ '/' :: v → xs = ys ∧ u = v := by
  intro xs
  induction xs with
  | nil =>
    intro ys u v _ hy h
    cases ys with
    | nil => simpa using h
    | cons y ys' =>
      simp only [List.nil_append, List.cons_append, List.cons.injEq] at h
      exact absurd (h.1 ▸ List.mem_cons_self y ys') hy
  | cons x xs' ih =>
    intro ys u v hx hy h
    cases ys with
    | nil =>
      simp only [List.cons_append, List.nil_append, List.cons.injEq] at h
      exact absurd (h.1 ▸ List.mem_cons_self x xs') hx
    | cons y ys' =>
      simp only [List.cons_append, List.cons.injEq] at h
      obtain ⟨rfl, h2⟩ := h
      obtain ⟨he, hu⟩ := ih (fun hm => hx (List.mem_cons_of_mem x hm))
        (fun hm => hy (List.mem_cons_of_mem x hm)) h2
      exact ⟨by rw [he], hu⟩

theorem scheme_decomp :
    MASS_URI_SCHEME = pystr "media-source:" ++ '/' :: ('/' :: pystr "music_assistant/") := by
  decide

theorem scheme_not_pre (s r : PyStr) (hne : s ≠ []) (hs : '/' ∉ s)
    (hr : ∀ t, r ≠ '/' :: (pystr "music_assistant/" ++ t)) :
    MASS_URI_SCHEME.isPrefixOf (s ++ '/' :: r) = false := by
  by_contra h
  simp only [Bool.not_eq_false] at h
  obtain ⟨t, ht⟩ := isPrefixOf_ex h
  rw [scheme_decomp] at ht
  simp only [List.append_assoc, List.cons_append] at ht
  have hA : '/' ∉ pystr "media-source:" := by decide
  obtain ⟨-, hru⟩ := first_slash_eq (pystr "media-source:") hA hs ht
  exact hr t hru.symm

theorem pySplit_len2 (sep u : PyStr) (hsep : sep ≠ []) (h : sep.isPrefixOf u = true) :
    2 ≤ (pySplit sep u).length := by
  cases u with
  | nil =>
    cases sep with
    | nil => exact absurd rfl hsep
    | cons a as => simp [List.isPrefixOf] at h
  | cons c cs =>
    show 2 ≤ (pySplitF sep (c :: cs).length (c :: cs)).length
    rw [show (c :: cs).length = cs.length + 1 from rfl]
    rw [pySplitF_pos sep cs.length c cs ⟨hsep, h⟩]
    cases hx : pySplitF sep cs.length (List.drop (sep.length - 1) cs) with
    | nil => exact absurd hx (pySplitF_ne_nil sep _ _)
    | cons y ys => simp

theorem parse_eq_core (uri : PyStr) : async_parse_uri uri = parseCore (stripUri uri) := by
  unfold async_parse_uri stripUri
  by_cases h : MASS_URI_SCHEME.isPrefixOf uri = true
  · have hlen := pySplit_len2 MASS_URI_SCHEME uri (by decide) h
    cases hx : (pySplit MASS_URI_SCHEME uri).get? 1 with
    | none =>
      have := List.get?_eq_none.mp hx
      omega
    | some x =>
      have hx2 : (pySplit MASS_URI_SCHEME uri)[1]? = some x := by
        rw [← List.get?_eq_getElem?]
        exact hx
      simp [h, pyIndex, hx2]
      rfl
  · simp only [Bool.not_eq_true] at h
    simp [h]

theorem unpack2_isOk (l : List α) : (pyUnpack2 l).isOk = true ↔ l.length = 2 := by
  match l with
  | [] => simp [pyUnpack2, Except.isOk, Except.toBool]
  | [a] => simp [pyUnpack2, Except.isOk, Except.toBool]
  | [a, b] => simp [pyUnpack2, Except.isOk, Except.toBool]
  | a :: b :: c :: t => simp [pyUnpack2, Except.isOk, Except.toBool]

/-! ## Claim C8 -/

/-- C8: decoding a two-segment uri of the form server_id/category (no third
segment) preserves mass_id and media_type and yields empty provider and
item_id, for any non-empty server_id and category free of the slash
delimiter. -/
theorem c8_category_only (s c : PyStr) (hs_ne : s ≠ []) (hs : '/' ∉ s) (hc : '/' ∉ c) :
    async_parse_uri (s ++ pystr "/" ++ c) = Except.ok ⟨[], [], c, s, []⟩ := by
  have huri : s ++ pystr "/" ++ c = s ++ '/' :: c := by
    rw [show pystr "/" = ['/'] from rfl, List.append_assoc]
    rfl
  rw [huri]
  have h1 : MASS_URI_SCHEME.isPrefixOf (s ++ '/' :: c) = false := by
    refine scheme_not_pre s c hs_ne hs ?_
    intro t ht
    exact hc (ht ▸ List.mem_cons_self '/' _)
  obtain ⟨x, s', rfl⟩ : ∃ x s', s = x :: s' := by
    cases s with
    | nil => exact absurd rfl hs_ne
    | cons x s' => exact ⟨x, s', rfl⟩
  have hx : x ≠ '/' := fun he => hs (he ▸ List.mem_cons_self x s')
  have h2 : (pystr "/").isPrefixOf ((x :: s') ++ '/' :: c) = false := by
    rw [show pystr "/" = ['/'] from rfl]
    simp only [List.cons_append, List.isPrefixOf, List.isPrefixOf_nil_left, Bool.and_true]
    simp only [beq_eq_false_iff_ne, ne_eq]
    exact fun he => hx he.symm
  have hsplit : pySplit (pystr "/") (x :: (s' ++ '/' :: c)) = [x :: s', c] := by
    rw [show x :: (s' ++ '/' :: c) = (x :: s') ++ '/' :: c from rfl]
    rw [show pystr "/" = ['/'] from rfl]
    rw [pySplit_char_append '/' (x :: s') c hs]
    rw [pySplit_no_char '/' c hc]
  have h1' : ¬ MASS_URI_SCHEME <+: (x :: (s' ++ '/' :: c)) := by
    intro hp
    have hb := List.isPrefixOf_iff_prefix.mpr hp
    rw [show x :: (s' ++ '/' :: c) = (x :: s') ++ '/' :: c from rfl, h1] at hb
    exact Bool.false_ne_true hb
  have h2' : ¬ (pystr "/") <+: (x :: (s' ++ '/' :: c)) := by
    intro hp
    have hb := List.isPrefixOf_iff_prefix.mpr hp
    rw [show x :: (s' ++ '/' :: c) = (x :: s') ++ '/' :: c from rfl, h2] at hb
    exact Bool.false_ne_true hb
  unfold async_parse_uri
  simp [h1', h2', parseCore, hsplit, pyIndex]
  rfl

/-- Witness for C8 at the concrete uri srv1/albums. -/
theorem c8_category_only_witness :
    async_parse_uri (pystr "srv1" ++ pystr "/" ++ pystr "albums") =
      Except.ok ⟨[], [], pystr "albums", pystr "srv1", []⟩ :=
  c8_category_only (pystr "srv1") (pystr "albums") (by decide) (by decide) (by decide)

theorem parseCore_three (u a b cid pr it : PyStr)
    (hsplit : pySplit (pystr "/") u = [a, b, cid]) (hcid : cid ≠ [])
    (hun : pySplit ITEM_ID_SEPERATOR cid = [pr, it]) :
    parseCore u = Except.ok ⟨it, pr, b, a, cid⟩ := by
  unfold parseCore
  rw [hsplit]
  show (if cid ≠ [] then
      pyUnpack2 (pySplit ITEM_ID_SEPERATOR cid) >>= fun pr2 =>
        pure (⟨pr2.2, pr2.1, b, a, cid⟩ : ParsedUri)
    else pure ⟨[], [], b, a, cid⟩) = Except.ok ⟨it, pr, b, a, cid⟩
  rw [if_pos hcid, hun]
  rfl

/-! ## Claim C1 -/

/-- C1 counterexample: with an empty server_id (a field that contains neither
the slash delimiter nor the private separator) and non-empty provider and
item_id, decoding the encoded identifier does not return the original fields:
the leading-slash strip makes the category become the mass_id. -/
theorem c1_counterexample :
    ('/' ∉ pystr "" ∧ '/' ∉ pystr "album" ∧ '/' ∉ pystr "spotify" ∧ '/' ∉ pystr "42") ∧
    (hasSubstr ITEM_ID_SEPERATOR (pystr "") = false ∧
     hasSubstr ITEM_ID_SEPERATOR (pystr "album") = false ∧
     hasSubstr ITEM_ID_SEPERATOR (pystr "spotify") = false ∧
     hasSubstr ITEM_ID_SEPERATOR (pystr "42") = false) ∧
    pystr "spotify" ≠ [] ∧ pystr "42" ≠ [] ∧
    async_parse_uri (buildIdentifier (pystr "") (pystr "album") (pystr "spotify") (pystr "42")) ≠
      Except.ok ⟨pystr "42", pystr "spotify", pystr "album", pystr "",
        media_item_id (pystr "spotify") (pystr "42")⟩ := by
  decide

/-- C1 amended: the encode/decode round trip holds for all fields free of the
slash delimiter and of the private separator, provided additionally that the
server_id is non-empty and the provider does not end in a hash character (a
trailing hash shifts the separator occurrence, and an empty server_id makes
the leading-slash strip eat the category). -/
theorem c1_roundtrip (s c p i : PyStr)
    (hs_ne : s ≠ []) (hssl : '/' ∉ s) (hcsl : '/' ∉ c) (hpsl : '/' ∉ p) (hisl : '/' ∉ i)
    (hs3 : hasSubstr ITEM_ID_SEPERATOR s = false)
    (hc3 : hasSubstr ITEM_ID_SEPERATOR c = false)
    (hp3 : hasSubstr ITEM_ID_SEPERATOR p = false)
    (hi3 : hasSubstr ITEM_ID_SEPERATOR i = false)
    (hplast : p.getLast? ≠ some '#')
    (hp_ne : p ≠ []) (hi_ne : i ≠ []) :
    async_parse_uri (buildIdentifier s c p i) =
      Except.ok ⟨i, p, c, s, media_item_id p i⟩ := by
  rw [sep_chars] at hp3 hi3
  have hpair : media_item_id p i = p ++ ['#', '#', '#'] ++ i := by
    rw [media_item_id, sep_chars]
  have hpairsl : '/' ∉ p ++ ['#', '#', '#'] ++ i := by
    intro hm
    rcases List.mem_append.mp hm with hm1 | hm2
    · rcases List.mem_append.mp hm1 with hm3 | hm4
      · exact hpsl hm3
      · simp at hm4
    · exact hisl hm2
  have huri : buildIdentifier s c p i =
      s ++ '/' :: (c ++ '/' :: (p ++ ['#', '#', '#'] ++ i)) := by
    unfold buildIdentifier
    rw [hpair, show pystr "/" = ['/'] from rfl]
    simp [List.append_assoc]
  rw [huri]
  have h1 : MASS_URI_SCHEME.isPrefixOf
      (s ++ '/' :: (c ++ '/' :: (p ++ ['#', '#', '#'] ++ i))) = false := by
    refine scheme_not_pre s _ hs_ne hssl ?_
    intro t ht
    cases c with
    | nil =>
      simp only [List.nil_append, List.cons.injEq, true_and] at ht
      have hmem : '/' ∈ pystr "music_assistant/" := by decide
      exact hpairsl (ht ▸ List.mem_append_left t hmem)
    | cons y c' =>
      simp only [List.cons_append, List.cons.injEq] at ht
      exact hcsl (ht.1 ▸ List.mem_cons_self y c')
  obtain ⟨x, s', rfl⟩ : ∃ x s', s = x :: s' := by
    cases s with
    | nil => exact absurd rfl hs_ne
    | cons x s' => exact ⟨x, s', rfl⟩
  have hx : x ≠ '/' := fun he => hssl (he ▸ List.mem_cons_self x s')
  have h2 : (pystr "/").isPrefixOf
      ((x :: s') ++ '/' :: (c ++ '/' :: (p ++ ['#', '#', '#'] ++ i))) = false := by
    rw [show pystr "/" = ['/'] from rfl]
    simp only [List.cons_append, List.isPrefixOf, List.isPrefixOf_nil_left, Bool.and_true]
    simp only [beq_eq_false_iff_ne, ne_eq]
    exact fun he => hx he.symm
  have hsplit : pySplit (pystr "/")
      (x :: (s' ++ '/' :: (c ++ '/' :: (p ++ ['#', '#', '#'] ++ i)))) =
      [x :: s', c, p ++ ['#', '#', '#'] ++ i] := by
    rw [show x :: (s' ++ '/' :: (c ++ '/' :: (p ++ ['#', '#', '#'] ++ i))) =
      (x :: s') ++ '/' :: (c ++ '/' :: (p ++ ['#', '#', '#'] ++ i)) from rfl]
    rw [show pystr "/" = ['/'] from rfl]
    rw [pySplit_char_append '/' (x :: s') _ hssl]
    rw [pySplit_char_append '/' c _ hcsl]
    rw [pySplit_no_char '/' _ hpairsl]
  have hpair_ne : p ++ ['#', '#', '#'] ++ i ≠ [] := by simp
  have hhsplit : pySplit ITEM_ID_SEPERATOR (p ++ ['#', '#', '#'] ++ i) = [p, i] := by
    rw [sep_chars]
    exact pySplit_hash_append p i hp3 hplast hi3
  have h1' : ¬ MASS_URI_SCHEME <+:
      (x :: (s' ++ '/' :: (c ++ '/' :: (p ++ ['#', '#', '#'] ++ i)))) := by
    intro hp
    have hb := List.isPrefixOf_iff_prefix.mpr hp
    rw [show x :: (s' ++ '/' :: (c ++ '/' :: (p ++ ['#', '#', '#'] ++ i))) =
      (x :: s') ++ '/' :: (c ++ '/' :: (p ++ ['#', '#', '#'] ++ i)) from rfl, h1] at hb
    exact Bool.false_ne_true hb
  have h2' : ¬ (pystr "/") <+:
      (x :: (s' ++ '/' :: (c ++ '/' :: (p ++ ['#', '#', '#'] ++ i)))) := by
    intro hp
    have hb := List.isPrefixOf_iff_prefix.mpr hp
    rw [show x :: (s' ++ '/' :: (c ++ '/' :: (p ++ ['#', '#', '#'] ++ i))) =
      (x :: s') ++ '/' :: (c ++ '/' :: (p ++ ['#', '#', '#'] ++ i)) from rfl, h2] at hb
    exact Bool.false_ne_true hb
  rw [hpair]
  rw [parse_eq_core]
  simp only [List.cons_append, List.append_assoc, List.nil_append] at h1' h2'
  have hstrip : stripUri ((x :: s') ++ '/' :: (c ++ '/' :: (p ++ ['#', '#', '#'] ++ i))) =
      (x :: s') ++ '/' :: (c ++ '/' :: (p ++ ['#', '#', '#'] ++ i)) := by
    simp only [stripUri]
    simp [h1', h2']
  rw [hstrip]
  exact parseCore_three _ _ _ _ _ _ hsplit hpair_ne hhsplit

/-- Witness for the amended C1 at server srv1, category album, provider
spotify, item 42. -/
theorem c1_roundtrip_witness :
    async_parse_uri (buildIdentifier (pystr "srv1") (pystr "album") (pystr "spotify") (pystr "42")) =
      Except.ok ⟨pystr "42", pystr "spotify", pystr "album", pystr "srv1",
        media_item_id (pystr "spotify") (pystr "42")⟩ :=
  c1_roundtrip (pystr "srv1") (pystr "album") (pystr "spotify") (pystr "42")
    (by decide) (by decide) (by decide) (by decide) (by decide) (by decide) (by decide)
    (by decide) (by decide) (by decide) (by decide) (by decide)

/-! ## Claim C5 -/

theorem isOk_bind_pure (e : Except PyErr α) (g : α → β) :
    (e >>= fun x => (pure (g x) : Except PyErr β)).isOk = e.isOk := by
  cases e <;> rfl

/-- C5 counterexample: decoding does not tolerate every input: on the
three-segment uri a/b/c, whose third segment does not contain the private
separator at all, async_parse_uri raises a ValueError from the two-variable
unpacking instead of returning empty fields or splitting at a first
occurrence. -/
theorem c5_counterexample :
    async_parse_uri (pystr "a/b/c") = Except.error PyErr.valueError := by decide

/-- C5 amended: decoding succeeds exactly when the stripped uri splits into at
least two slash-separated segments and any present non-empty third segment
splits at the private separator into exactly two parts; on all other inputs an
IndexError or ValueError is raised, so only the missing or empty third segment
yields empty provider and item_id fields. -/
theorem c5_parse_success_iff (uri : PyStr) :
    (async_parse_uri uri).isOk = true ↔
      (2 ≤ (pySplit (pystr "/") (stripUri uri)).length ∧
       ∀ cid, (pySplit (pystr "/") (stripUri uri)).get? 2 = some cid → cid ≠ [] →
         (pySplit ITEM_ID_SEPERATOR cid).length = 2) := by
  rw [parse_eq_core]
  simp only [parseCore]
  generalize pySplit (pystr "/") (stripUri uri) = parts
  cases parts with
  | nil =>
    simp [pyIndex, Except.isOk, Except.toBool]
    rfl
  | cons a t1 =>
    cases t1 with
    | nil =>
      simp [pyIndex, Except.isOk, Except.toBool]
      rfl
    | cons b t2 =>
      cases t2 with
      | nil =>
        show (pure (⟨[], [], b, a, []⟩ : ParsedUri) : Except PyErr ParsedUri).isOk = true ↔ _
        simp [Except.isOk, Except.toBool]
        rfl
      | cons cid rest =>
        have hlen : (a :: b :: cid :: rest).length > 2 := by simp
        simp only [if_pos hlen]
        by_cases hcid : cid = []
        · subst hcid
          show (pure (⟨[], [], b, a, []⟩ : ParsedUri) : Except PyErr ParsedUri).isOk = true ↔ _
          simp [Except.isOk, Except.toBool]
          rfl
        · show ((if cid ≠ [] then
              pyUnpack2 (pySplit ITEM_ID_SEPERATOR cid) >>= fun pr2 =>
                pure (⟨pr2.2, pr2.1, b, a, cid⟩ : ParsedUri)
            else pure ⟨[], [], b, a, cid⟩) : Except PyErr ParsedUri).isOk = true ↔ _
          rw [if_pos hcid, isOk_bind_pure, unpack2_isOk]
          simp [hcid]

/-! ## Claim C6 -/

/-- C6 counterexample: the receiver entity with source list TV, CD yields only
the two sourced power candidates and the volume candidate; no source-less
power candidate with id media_player.receiver_power is produced, contrary to
the claimed additional candidate. -/
theorem c6_counterexample :
    (async_get_playercontrol_entities [receiver]).map (fun c => c.control_id) =
      [pystr "media_player.receiver_power_TV", pystr "media_player.receiver_power_CD",
       pystr "media_player.receiver_volume"] ∧
    pystr "media_player.receiver_power" ∉
      (async_get_playercontrol_entities [receiver]).map (fun c => c.control_id) := by
  decide

/-- C6 amended: a media-player entity exposing a source list (and not marked
as a Music Assistant player) yields exactly one power candidate per source
with id entity_id_power_source plus one volume candidate with id
entity_id_volume; the source-less power candidate appears only for entities
without a source list attribute. -/
theorem c6_discovery (e : EntityState) (l : List PyStr)
    (hdom : e.domain = MEDIA_PLAYER_DOMAIN)
    (hmass : truthyStr e.attributes.mass_player_id = false)
    (hlist : e.attributes.input_source_list = some l)
    (hne : ∀ s, s ∈ l → s ≠ []) :
    (async_get_playercontrol_entities [e]).map (fun c => c.control_id) =
      l.map (fun s => e.entity_id ++ pystr "_power_" ++ s) ++
        [e.entity_id ++ pystr "_volume"] := by
  have hdm : decide (e.domain ∈ CONTROL_DOMAINS) = true := by
    rw [hdom]
    decide
  unfold async_get_playercontrol_entities
  rw [show List.filter (fun x => decide (x.domain ∈ CONTROL_DOMAINS)) [e] = [e] from by
    simp [List.filter, hdm]]
  simp only [List.flatMap_cons, List.flatMap_nil, List.append_nil]
  simp only [hmass, Bool.false_eq_true, if_false]
  unfold powerControlsOf volumeControlsOf
  rw [hlist, if_pos hdom]
  simp only [Option.getD_some, List.map_append, List.map_map]
  congr 1
  refine List.map_congr_left ?_
  intro s hsmem
  simp [hne s hsmem]

/-- Witness for the amended C6 at the receiver entity with sources TV and CD. -/
theorem c6_discovery_witness :
    (async_get_playercontrol_entities [receiver]).map (fun c => c.control_id) =
      [pystr "TV", pystr "CD"].map (fun s => receiver.entity_id ++ pystr "_power_" ++ s) ++
        [receiver.entity_id ++ pystr "_volume"] :=
  c6_discovery receiver [pystr "TV", pystr "CD"] (by decide) (by decide) (by decide) (by decide)

/-! ## Claim C3 -/

/-- C3 counterexample: registering the sourced power control for source TV
while the bound entity is on with source CD selected sends an initial state
snapshot of true to the server, although the currently selected source differs
from the configured source of the control. -/
theorem c3_counterexample :
    (async_register_player_controls [entAmpCD] [pystr "media_player.amp_power_TV"] [] []).2 =
      [{ control_type := CONTROL_TYPE_POWER, control_id := pystr "media_player.amp_power_TV",
         name := pystr "Amp (media_player.amp): TV", state := PyValue.pyBool true }] ∧
    entAmpCD.attributes.input_source ≠ ctlTV.source := by
  decide

/-- C3 amended: on every local state-change push the state recomputed for a
sourced power control is true exactly when the entity input source equals the
configured source; the initial snapshot at registration instead reports the
plain power state, namely whether the entity state is outside the off,
unavailable and unknown states. -/
theorem c3_sourced_power_state (control : Control) (state_obj : EntityState) (src : PyStr)
    (hct : control.control_type = CONTROL_TYPE_POWER)
    (hsrc : control.source = some src) (hnee : src ≠ []) :
    (controlUpdateValue control state_obj = some (PyValue.pyBool true) ↔
      state_obj.attributes.input_source.getD [] = src) ∧
    (∀ entity : EntityState, registrationState control entity =
      PyValue.pyBool (decide (entity.state ∉ OFF_STATES))) := by
  constructor
  · have ht : truthyStr control.source = true := by
      rw [hsrc]
      simp [truthyStr, hnee]
    unfold controlUpdateValue
    rw [if_pos ⟨hct, ht⟩, hsrc]
    simp only [Option.getD_some, Option.some.injEq, PyValue.pyBool.injEq, beq_iff_eq]
  · intro entity
    unfold registrationState
    rw [if_neg (by rw [hct]; decide)]

/-- Witness for the amended C3 at the TV control and the entity on source CD. -/
theorem c3_sourced_power_state_witness :
    ((controlUpdateValue ctlTV entAmpCD = some (PyValue.pyBool true) ↔
       entAmpCD.attributes.input_source.getD [] = pystr "TV") ∧
     (∀ entity : EntityState, registrationState ctlTV entity =
       PyValue.pyBool (decide (entity.state ∉ OFF_STATES)))) :=
  c3_sourced_power_state ctlTV entAmpCD (pystr "TV") (by decide) (by decide) (by decide)

/-! ## Claim C4 -/

/-- C4: evaluating the embedded command handler at the failing input: a
power-on request (new state true) for the sourced power control bound to an
entity that is already on with the matching source TV dispatches a turn-off
call, because the select-source branch additionally requires the entity state
to be the literal off and the fall-through branch only checks source
equality. -/
theorem c4_power_on_turn_off :
    async_set_player_control_state [entAmpTV] ctlTV (PyValue.pyBool true) =
      [{ domain := MEDIA_PLAYER_DOMAIN, service := pystr "turn_off",
         entity_id := pystr "media_player.amp", source := none, volume_level := none }] := by
  decide

/-! ## Claim C9 -/

/-- C9: a remote volume request of 55 for a volume control whose target entity
exists dispatches exactly one volume-set call carrying level 55 divided by
100, that is 0.55. -/
theorem c9_volume_55 (hass : List EntityState) (control : Control) (entity : EntityState)
    (hct : control.control_type = CONTROL_TYPE_VOLUME)
    (hent : statesGet hass control.entity_id = some entity) :
    async_set_player_control_state hass control (PyValue.pyNum 55) =
      [{ domain := entity.domain, service := pystr "volume_set",
         entity_id := control.entity_id, source := none,
         volume_level := some (0.55 : Rat) }] := by
  unfold async_set_player_control_state
  have hq : (PyValue.pyNum 55).toQ / 100 = (0.55 : Rat) := by
    norm_num [PyValue.toQ]
  simp [hent, hct, hq, CONTROL_TYPE_VOLUME, CONTROL_TYPE_POWER]

/-- Witness for C9 at the concrete volume control of the second media player. -/
theorem c9_volume_55_witness :
    async_set_player_control_state [entAmp2] ctlVol (PyValue.pyNum 55) =
      [{ domain := entAmp2.domain, service := pystr "volume_set",
         entity_id := ctlVol.entity_id, source := none, volume_level := some (0.55 : Rat) }] :=
  c9_volume_55 [entAmp2] ctlVol entAmp2 (by decide) (by decide)

/-! ## Claim C2 -/

theorem total_map_ge (tbl : RegisteredTable) (g : PyStr × List Control → PyStr × List Control)
    (hg : ∀ kv, kv.2.length ≤ (g kv).2.length) :
    totalRegistered tbl ≤ totalRegistered (tbl.map g) := by
  induction tbl with
  | nil => simp [totalRegistered]
  | cons kv rest ih =>
    simp only [totalRegistered, List.map_cons, List.sum_cons] at ih ⊢
    exact Nat.add_le_add (hg kv) ih

theorem tableAdd_mono (tbl : RegisteredTable) (eid : PyStr) (c : Control) :
    totalRegistered tbl ≤ totalRegistered (tableAdd tbl eid c) := by
  unfold tableAdd
  have hg : ∀ kv : PyStr × List Control, kv.2.length ≤
      ((fun kv => if kv.1 = eid then
        (kv.1, if c ∈ kv.2 then kv.2 else kv.2 ++ [c]) else kv) kv).2.length := by
    intro kv
    by_cases h1 : kv.1 = eid <;> by_cases h2 : c ∈ kv.2 <;> simp [h1, h2]
  by_cases h : (tbl.lookup eid).isSome
  · rw [if_pos h]
    exact total_map_ge tbl _ hg
  · rw [if_neg h]
    refine le_trans ?_ (total_map_ge _ _ hg)
    simp [totalRegistered]

theorem regStep_mono (hass : List EntityState) (enabled : List PyStr)
    (acc : RegisteredTable × List RegisterCall) (c : Control) :
    totalRegistered acc.1 ≤ totalRegistered (regStep hass enabled acc c).1 := by
  unfold regStep
  by_cases h : c.control_id ∈ enabled
  · rw [if_pos h]
    cases hs : statesGet hass c.entity_id with
    | none => exact Nat.le_refl _
    | some e => exact tableAdd_mono acc.1 e.entity_id c
  · rw [if_neg h]

theorem regStep_calls (hass : List EntityState) (enabled : List PyStr)
    (acc : RegisteredTable × List RegisterCall) (c : Control) :
    (regStep hass enabled acc c).2.length = acc.2.length +
      (if decide (c.control_id ∈ enabled) && (statesGet hass c.entity_id).isSome then 1 else 0) := by
  unfold regStep
  by_cases h : c.control_id ∈ enabled
  · rw [if_pos h]
    cases hs : statesGet hass c.entity_id with
    | none => simp [hs, h]
    | some e => simp [hs, h]
  · rw [if_neg h]
    simp [h]

theorem foldl_reg_mono (hass : List EntityState) (enabled : List PyStr) :
    ∀ (cs : List Control) (acc : RegisteredTable × List RegisterCall),
      totalRegistered acc.1 ≤ totalRegistered (cs.foldl (regStep hass enabled) acc).1 := by
  intro cs
  induction cs with
  | nil => intro acc; exact Nat.le_refl _
  | cons c rest ih =>
    intro acc
    rw [List.foldl_cons]
    exact le_trans (regStep_mono hass enabled acc c) (ih _)

theorem foldl_reg_calls (hass : List EntityState) (enabled : List PyStr) :
    ∀ (cs : List Control) (acc : RegisteredTable × List RegisterCall),
      (cs.foldl (regStep hass enabled) acc).2.length =
        acc.2.length + (cs.filter (fun c =>
          decide (c.control_id ∈ enabled) && (statesGet hass c.entity_id).isSome)).length := by
  intro cs
  induction cs with
  | nil => intro acc; simp
  | cons c rest ih =>
    intro acc
    rw [List.foldl_cons, ih, regStep_calls, List.filter_cons]
    by_cases hc : (decide (c.control_id ∈ enabled) && (statesGet hass c.entity_id).isSome) = true
    · simp [hc]
      omega
    · simp only [Bool.not_eq_true] at hc
      simp [hc]

/-- C2 counterexample: after registering the two switch power controls
(enabled-set of size two) and re-registering on the same bridge state with the
singleton subset, the registered-controls table still holds two controls, not
one: dropped controls are never removed. -/
theorem c2_counterexample :
    totalRegistered
      (async_register_player_controls [swA, swB] [pystr "switch.a_power"] []
        (async_register_player_controls [swA, swB]
          [pystr "switch.a_power", pystr "switch.b_power"] [] []).1).1 = 2 := by
  decide

/-- C2 amended: a registration pass on the same bridge instance issues exactly
one register call per discovered control that is enabled and whose entity
exists, but never shrinks the registered-controls table, so re-registering
with a subset leaves every previously registered control in the table. -/
theorem c2_reregistration (hass : List EntityState)
    (enabled_power_controls enabled_volume_controls : List PyStr) (tbl : RegisteredTable) :
    totalRegistered tbl ≤ totalRegistered
      (async_register_player_controls hass enabled_power_controls enabled_volume_controls tbl).1 ∧
    (async_register_player_controls hass enabled_power_controls enabled_volume_controls tbl).2.length =
      ((async_get_playercontrol_entities hass).filter (fun c =>
        decide (c.control_id ∈ enabled_power_controls ++ enabled_volume_controls) &&
        (statesGet hass c.entity_id).isSome)).length := by
  constructor
  · exact foldl_reg_mono hass _ _ (tbl, [])
  · unfold async_register_player_controls
    rw [foldl_reg_calls]
    simp

/-! ## Claim C7 -/

/-- C7: evaluating the embedded title computation at the failing input: the
album Animals by Pink Floyd is titled with the bare album name, because the
if/else chain of the source overwrites the artist dash name assignment; the
playability flag for the album category is nevertheless true as claimed. -/
theorem c7_album_title :
    mediaItemTitle sampleAlbum = pystr "Animals" ∧
    mediaItemTitle sampleAlbum ≠ pystr "Pink Floyd - Animals" ∧
    mediaItemCanPlay sampleAlbum = true := by
  decide

/-! ## Claim C10 -/

/-- C10: player entity lifecycle invariant: a first snapshot that is
unavailable never creates an entity (the table is unchanged), and a
player-removed event keeps every entity (the key set is unchanged) while only
the available field of the matching cached snapshot is cleared, all other
fields staying intact. -/
theorem c10_lifecycle (mp : MediaPlayers) (pd : PlayerData) (pid : PyStr) :
    (mp.lookup pd.player_id = none → pd.available = false →
      async_update_media_player mp pd = mp) ∧
    ((async_remove_media_player mp pid).map Prod.fst = mp.map Prod.fst) ∧
    (∀ k v, mp.lookup k = some v →
      (async_remove_media_player mp pid).lookup k =
        some (if v.player_id = pid then { v with available := false } else v)) := by
  refine ⟨?_, ?_, ?_⟩
  · intro h1 h2
    unfold async_update_media_player
    rw [h1]
    show (if pd.available = false then mp else mp ++ [(pd.player_id, pd)]) = mp
    rw [if_pos h2]
  · unfold async_remove_media_player
    rw [List.map_map]
    refine List.map_congr_left ?_
    intro kv _
    by_cases h : kv.2.player_id = pid <;> simp [h]
  · intro k v hkv
    unfold async_remove_media_player
    induction mp with
    | nil => simp at hkv
    | cons kv rest ih =>
      rw [List.map_cons]
      by_cases hb : (k == kv.1) = true
      · have hv : kv.2 = v := by
          have h2 := hkv
          simp [List.lookup, hb] at h2
          exact h2
        by_cases hc : kv.2.player_id = pid
        · rw [if_pos hc]
          simp [List.lookup, hb, ← hv, hc]
        · rw [if_neg hc]
          simp [List.lookup, hb, ← hv, hc]
      · have hkv2 : rest.lookup k = some v := by
          have h2 := hkv
          simp [List.lookup, hb] at h2
          exact h2
        have htail := ih hkv2
        by_cases hc : kv.2.player_id = pid
        · rw [if_pos hc]
          simp only [List.lookup, hb]
          exact htail
        · rw [if_neg hc]
          simp only [List.lookup, hb]
          exact htail

/-- Witness for C10: an unavailable first snapshot leaves the empty table
unchanged. -/
theorem c10_lifecycle_witness :
    async_update_media_player [] offlinePlayer = [] :=
  (c10_lifecycle [] offlinePlayer []).1 rfl rfl
